import Mathlib

/-!
# control.go : task store, persistence and HTTP handlers

A shallow embedding of `control.go`.

* Go strings are Lean strings.  Every string that reaches the store comes out
  of `encoding/json` decoding (a request body or the persistence file), which
  yields valid UTF-8 only, so sequences of Unicode scalar values are the
  strings the store can hold.
* A Go slice `[]Task` is `Option (List Task)`: `none` is the nil slice,
  `some []` the empty non-nil slice.  `encoding/json` renders the first as
  `null` and the second as `[]`.
* JSON texts are represented by the document they denote (`JSONValue`).
  `json.Marshal` and `json.MarshalIndent` produce the same document (they
  differ in white space only); rendering a document to bytes and scanning
  bytes back into a document is the library's text layer and is not
  modelled.
* `c.BindJSON` is gin's; what it returns for the body of a request is part
  of the request (`Request.bindTasks`, `Request.bindTask`).
* `os.WriteFile` may fail; what it does is an input of every handler
  (`WriteOutcome`).
* Requests are served one at a time (no interleaving), so the lock
  operations on `tasksMu` have no effect and are left out.
-/

namespace Control

/-! ## Data model (control.go, lines 25-45) -/

/-- Go struct `Config`. -/
structure Config where
  RemoteURL : String
  AuthToken : String
deriving DecidableEq, Repr

/-- Go struct `Task`.  The field `Type` of the source is `Type_` here, and the
pointer field `Config *Config` is an `Option` (`none` is the nil pointer). -/
structure Task where
  ID : String
  Name : String
  Schedule : String
  Type_ : String
  Payload : String
  Config : Option Config
deriving DecidableEq, Repr

/-- A Go value of type `[]Task`: `none` is the nil slice. -/
abbrev Slice := Option (List Task)

/-- The tasks held by a slice, in order (a nil slice holds none). -/
def Slice.elems : Slice → List Task
  | none => []
  | some ts => ts

/-- Go `append(s, t)`: the result is never nil. -/
def Slice.append (s : Slice) (t : Task) : Slice :=
  some (s.elems ++ [t])

/-- The zero value of `Config`. -/
def zeroConfig : Config := ⟨"", ""⟩

/-- The zero value of `Task`. -/
def zeroTask : Task := ⟨"", "", "", "", "", none⟩

/-! ## JSON documents and the struct tags -/

/-- A JSON document. Numbers are kept as their literal text. -/
inductive JSONValue where
  | null
  | bool (b : Bool)
  | number (lit : String)
  | string (s : String)
  | array (elems : List JSONValue)
  | object (members : List (String × JSONValue))
deriving Repr

/-- Tells whether a document is a JSON array. -/
def JSONValue.isArray : JSONValue → Bool
  | .array _ => true
  | _ => false

/-- Encoding of a `Config`: both fields are always written
(tags `remote_url`, `auth_token`, no `omitempty`). -/
def marshalConfig (c : Config) : JSONValue :=
  .object [("remote_url", .string c.RemoteURL), ("auth_token", .string c.AuthToken)]

/-- Encoding of a `Task` as its struct tags direct: `id`, `name`, `schedule`
and `type` are always written; `payload` is left out when the string is empty
and `config` when the pointer is nil (`omitempty`). -/
def marshalTask (t : Task) : JSONValue :=
  .object
    ([("id", .string t.ID), ("name", .string t.Name),
      ("schedule", .string t.Schedule), ("type", .string t.Type_)]
      ++ (if t.Payload = "" then [] else [("payload", .string t.Payload)])
      ++ (match t.Config with
          | none => []
          | some c => [("config", marshalConfig c)]))

/-- Encoding of a `[]Task`: a nil slice is `null`, any other slice an array. -/
def marshalTasks : Slice → JSONValue
  | none => .null
  | some ts => .array (ts.map marshalTask)

/-- Case folding of one character as far as it matters for matching a key
against the ASCII field names: ASCII letters fold to upper case, and the two
non-ASCII characters whose simple case folding reaches an ASCII letter
(U+017F and U+212A) fold to `S` and `K`. -/
def foldRune (c : Char) : Char :=
  if 'a' ≤ c ∧ c ≤ 'z' then Char.ofNat (c.toNat - 32)
  else if c = Char.ofNat 0x17F then 'S'
  else if c = Char.ofNat 0x212A then 'K'
  else c

/-- Case folding of a key. -/
def foldName (s : String) : String :=
  String.mk (s.data.map foldRune)

/-- Position of the first name satisfying `p`. -/
def findName (p : String → Bool) : List String → Option Nat
  | [] => none
  | n :: rest => if p n then some 0 else (findName p rest).map (· + 1)

/-- Field selection of the decoder: the field whose name is exactly the key,
and failing that the first field whose name equals the key under case
folding. -/
def fieldIndex (names : List String) (key : String) : Option Nat :=
  match findName (fun n => decide (n = key)) names with
  | some i => some i
  | none => findName (fun n => decide (foldName n = foldName key)) names

/-- Decoding into a `string` field that holds `cur`: a JSON string is stored,
`null` leaves the field alone, anything else is a type error that leaves the
field alone. -/
def decodeString (cur : String) : JSONValue → String
  | .string s => s
  | _ => cur

/-- Decoding one object member into a `Config`. -/
def setConfigField (c : Config) (m : String × JSONValue) : Config :=
  match fieldIndex ["remote_url", "auth_token"] m.1 with
  | some 0 => { c with RemoteURL := decodeString c.RemoteURL m.2 }
  | some 1 => { c with AuthToken := decodeString c.AuthToken m.2 }
  | _ => c

/-- Decoding into a `Config` that holds `cur`: the members of an object are
applied in order, unknown keys are skipped, and any other document leaves the
value alone. -/
def decodeConfig (cur : Config) : JSONValue → Config
  | .object ms => ms.foldl setConfigField cur
  | _ => cur

/-- Decoding into the pointer field `*Config` that holds `cur`: `null` sets
the pointer to nil; for every other document the decoder allocates a zero
`Config` when the pointer is nil and decodes into the pointed-to value. -/
def decodeConfigPtr (cur : Option Config) : JSONValue → Option Config
  | .null => none
  | j => some (decodeConfig (cur.getD zeroConfig) j)

/-- Decoding one object member into a `Task`. -/
def setTaskField (t : Task) (m : String × JSONValue) : Task :=
  match fieldIndex ["id", "name", "schedule", "type", "payload", "config"] m.1 with
  | some 0 => { t with ID := decodeString t.ID m.2 }
  | some 1 => { t with Name := decodeString t.Name m.2 }
  | some 2 => { t with Schedule := decodeString t.Schedule m.2 }
  | some 3 => { t with Type_ := decodeString t.Type_ m.2 }
  | some 4 => { t with Payload := decodeString t.Payload m.2 }
  | some 5 => { t with Config := decodeConfigPtr t.Config m.2 }
  | _ => t

/-- Decoding into a `Task` that holds `cur`. -/
def decodeTask (cur : Task) : JSONValue → Task
  | .object ms => ms.foldl setTaskField cur
  | _ => cur

/-- Result of `json.Unmarshal(data, &tasks)` on a nil `tasks` when `data`
denotes `doc`, the returned error being ignored as `loadTasks` does: `null`
leaves the slice nil, an array gives a non-nil slice with one element per
array element, each decoded into a zero `Task`; any other document is a type
error and leaves the slice nil. -/
def unmarshalTasks : JSONValue → Slice
  | .array xs => some (xs.map (decodeTask zeroTask))
  | _ => none

/-! ## Process state and persistence (control.go, lines 88-98) -/

/-- Content of a file: bytes that are not one JSON text, or a JSON text,
represented by its document. -/
inductive FileContent where
  | notJSON
  | json (doc : JSONValue)

/-- The file `tasks.json`: `none` when it cannot be read. -/
abbrev File := Option FileContent

/-- The package variable `tasks` together with the persistence file. -/
structure State where
  tasks : Slice
  file : File

/-- What `os.WriteFile` does: it succeeds, or it fails and leaves the file
as `left`. -/
inductive WriteOutcome where
  | ok
  | failed (left : File)

/-- Go `saveTasks`: the whole slice is encoded and written over the file; the
error of the write is dropped. -/
def saveTasks (w : WriteOutcome) (s : State) : State :=
  match w with
  | .ok => { s with file := some (.json (marshalTasks s.tasks)) }
  | .failed left => { s with file := left }

/-- Go `loadTasks` as `main` runs it, with `tasks` still nil: the value of
`tasks` afterwards.  An unreadable file and a file that is not JSON leave it
nil. -/
def loadTasks (file : File) : Slice :=
  match file with
  | some (.json doc) => unmarshalTasks doc
  | _ => none

/-- State of the process once `main` has run `loadTasks`. -/
def boot (file : File) : State :=
  { tasks := loadTasks file, file := file }

/-! ## The gin context -/

/-- An HTTP response written by `c.JSON`: status code and JSON body. -/
structure Response where
  status : Nat
  body : JSONValue

/-- What a request carries, as far as the handlers look at it. -/
structure Request where
  /-- Value of the `Authorization` header, `none` when the header is absent. -/
  authorization : Option String
  /-- Value of the path parameter `:id`. -/
  id : String
  /-- What `c.BindJSON` returns for a target of type `[]Task`: the text of
  the error, or the decoded slice. -/
  bindTasks : Except String Slice
  /-- What `c.BindJSON` returns for a target of type `Task`. -/
  bindTask : Except String Task

/-- A request without a body (what `GET` and `DELETE` send): binding it to
anything fails with `EOF`. -/
def Request.noBody (authorization : Option String) (id : String) : Request :=
  ⟨authorization, id, .error "EOF", .error "EOF"⟩

/-- A request whose body is the JSON object of the task `t`: it binds as a
`Task` and does not bind as a `[]Task`. -/
def Request.withTask (authorization : Option String) (id : String) (t : Task) : Request :=
  ⟨authorization, id,
    .error "json: cannot unmarshal object into Go value of type []main.Task", .ok t⟩

/-- A request whose body is the JSON text of the slice `n`: it binds as a
`[]Task`; as a `Task` the body `null` binds to the zero task and an array does
not bind. -/
def Request.withTasks (authorization : Option String) (n : Slice) : Request :=
  ⟨authorization, "", .ok n,
    match n with
    | none => .ok zeroTask
    | some _ => .error "json: cannot unmarshal array into Go value of type main.Task"⟩

/-- The `*gin.Context` of one request: the request, the responses written so
far, and the abort flag that stops the handler chain. -/
structure Context where
  req : Request
  writes : List Response
  aborted : Bool

/-- The context gin hands to the first handler of a chain. -/
def Context.fresh (req : Request) : Context :=
  { req := req, writes := [], aborted := false }

/-- Go `c.GetHeader("Authorization")`: the empty string when the header is
absent. -/
def Context.GetHeader (c : Context) : String :=
  c.req.authorization.getD ""

/-- Go `c.Param("id")`. -/
def Context.Param (c : Context) : String :=
  c.req.id

/-- Go `c.JSON(code, obj)`: writes a response. -/
def Context.JSON (c : Context) (code : Nat) (obj : JSONValue) : Context :=
  { c with writes := c.writes ++ [⟨code, obj⟩] }

/-- Go `c.Abort()`. -/
def Context.Abort (c : Context) : Context :=
  { c with aborted := true }

/-- Go `c.BindJSON(&v)`: on an error gin aborts the context (with status
400) before it hands the error back to the handler. -/
def Context.BindJSON {α : Type} (c : Context) (outcome : Except String α) :
    Context × Except String α :=
  match outcome with
  | .error err => (c.Abort, .error err)
  | .ok v => (c, .ok v)

/-- Go `gin.H{k: v}` with one string entry. -/
def H (k v : String) : JSONValue :=
  .object [(k, .string v)]

/-! ## Handlers (control.go, lines 100-164) -/

/-- Go `getTasks`. -/
def getTasks (c : Context) (s : State) : Context × State :=
  (c.JSON 200 (marshalTasks s.tasks), s)

/-- Go `overwriteTasks`. -/
def overwriteTasks (w : WriteOutcome) (c : Context) (s : State) : Context × State :=
  match c.BindJSON c.req.bindTasks with
  | (c, .error err) => (c.JSON 400 (H "error" err), s)
  | (c, .ok newTasks) =>
    let s := { s with tasks := newTasks }
    let s := saveTasks w s
    (c.JSON 200 (H "status" "updated"), s)

/-- Go `addTask`. -/
def addTask (w : WriteOutcome) (c : Context) (s : State) : Context × State :=
  match c.BindJSON c.req.bindTask with
  | (c, .error err) => (c.JSON 400 (H "error" err), s)
  | (c, .ok t) =>
    let s := { s with tasks := s.tasks.append t }
    let s := saveTasks w s
    (c.JSON 200 (H "status" "added"), s)

/-- The loop of `updateTask` over the elements of `tasks`: the first element
whose ID is `id` is overwritten and the loop stops. -/
def updateLoop (id : String) (updated : Task) : List Task → List Task
  | [] => []
  | t :: rest => if t.ID = id then updated :: rest else t :: updateLoop id updated rest

/-- Go `updateTask`.  The loop writes into the elements of `tasks`; a nil
slice has none and stays nil. -/
def updateTask (w : WriteOutcome) (c : Context) (s : State) : Context × State :=
  let id := c.Param
  match c.BindJSON c.req.bindTask with
  | (c, .error err) => (c.JSON 400 (H "error" err), s)
  | (c, .ok updated) =>
    let s := { s with tasks := s.tasks.map (updateLoop id updated) }
    let s := saveTasks w s
    (c.JSON 200 (H "status" "updated"), s)

/-- The loop of `deleteTask`: `newTasks` is the accumulator, every task whose
ID differs from `id` is appended to it. -/
def deleteLoop (id : String) (newTasks : List Task) : List Task → List Task
  | [] => newTasks
  | t :: rest =>
    if t.ID ≠ id then deleteLoop id (newTasks ++ [t]) rest
    else deleteLoop id newTasks rest

/-- Go `deleteTask`: `newTasks` starts as the empty non-nil slice `[]Task{}`. -/
def deleteTask (w : WriteOutcome) (c : Context) (s : State) : Context × State :=
  let id := c.Param
  let newTasks := deleteLoop id [] s.tasks.elems
  let s := { s with tasks := some newTasks }
  let s := saveTasks w s
  (c.JSON 200 (H "status" "deleted"), s)

/-! ## Routing and the auth middleware (control.go, lines 58-75) -/

/-- The five routes registered on the group `/api`. -/
inductive Route where
  /-- Route `GET /api/tasks`. -/
  | getTasks
  /-- Route `POST /api/tasks`. -/
  | overwriteTasks
  /-- Route `POST /api/tasks/add`. -/
  | addTask
  /-- Route `PUT /api/tasks/:id`. -/
  | updateTask
  /-- Route `DELETE /api/tasks/:id`. -/
  | deleteTask
deriving DecidableEq, Repr

/-- The handler registered for a route. -/
def Route.handler (r : Route) (w : WriteOutcome) : Context → State → Context × State :=
  match r with
  | .getTasks => Control.getTasks
  | .overwriteTasks => Control.overwriteTasks w
  | .addTask => Control.addTask w
  | .updateTask => Control.updateTask w
  | .deleteTask => Control.deleteTask w

/-- The middleware `auth` of `main`.  `next` is the rest of the handler chain,
which `c.Next()` runs; after `c.Abort()` gin runs no further handler. -/
def auth (token : String) (next : Context → State → Context × State)
    (c : Context) (s : State) : Context × State :=
  if c.GetHeader ≠ "Bearer " ++ token then
    ((c.JSON 401 (H "error" "unauthorized")).Abort, s)
  else
    next c s

/-- One request to a route of the group `/api`: the chain is `auth` followed
by the route's handler. -/
def serve (token : String) (r : Route) (w : WriteOutcome) (req : Request)
    (s : State) : Context × State :=
  auth token (r.handler w) (Context.fresh req) s

/-- One call of the API: route, request, and what the file write does if the
handler reaches it. -/
structure Call where
  route : Route
  req : Request
  write : WriteOutcome

/-- State after one call. -/
def step (token : String) (s : State) (k : Call) : State :=
  (serve token k.route k.write k.req s).2

/-- State after a sequence of calls served one after the other. -/
def run (token : String) (s : State) (ks : List Call) : State :=
  ks.foldl (step token) s

/-- A request that passes `auth`. -/
def Request.authorized (token : String) (req : Request) : Prop :=
  req.authorization = some ("Bearer " ++ token)

instance (token : String) (req : Request) : Decidable (req.authorized token) := by
  unfold Request.authorized; infer_instance

/-- The handler of the route, run on the request, gets to its mutation: the
route is one of the four mutating routes and the body binds where the handler
binds one. -/
def Route.reachesMutation (r : Route) (req : Request) : Prop :=
  match r with
  | .getTasks => False
  | .overwriteTasks => ∃ n, req.bindTasks = .ok n
  | .addTask => ∃ t, req.bindTask = .ok t
  | .updateTask => ∃ t, req.bindTask = .ok t
  | .deleteTask => True

/-- A call that reaches the mutation of its handler: it is authorized, its
route is one of the four mutating routes, and its body binds. -/
def Call.mutates (token : String) (k : Call) : Prop :=
  k.req.authorized token ∧ k.route.reachesMutation k.req

/-- Index of the first task whose ID is `id`; the length of the list when no
task has it. -/
def firstMatch (id : String) (l : List Task) : Nat :=
  l.findIdx (fun t => decide (t.ID = id))

/-- The file holds the encoding of the task list. -/
def State.mirrored (s : State) : Prop :=
  s.file = some (.json (marshalTasks s.tasks))

/-! ## Auxiliary facts -/

theorem bearer_ne_empty (token : String) : "" ≠ "Bearer " ++ token := by
  intro h
  have hl := congrArg String.length h
  simp [String.length_append] at hl
  have h7 : "Bearer ".length = 7 := by decide
  omega

theorem serve_of_authorized (token : String) (r : Route) (w : WriteOutcome)
    (req : Request) (s : State) (h : req.authorized token) :
    serve token r w req s = r.handler w (Context.fresh req) s := by
  unfold Request.authorized at h
  simp [serve, auth, Context.GetHeader, Context.fresh, h]

theorem serve_of_not_authorized (token : String) (r : Route) (w : WriteOutcome)
    (req : Request) (s : State) (h : ¬ req.authorized token) :
    serve token r w req s
      = ({ req := req, writes := [⟨401, H "error" "unauthorized"⟩], aborted := true }, s) := by
  unfold Request.authorized at h
  have hne : req.authorization.getD "" ≠ "Bearer " ++ token := by
    cases ha : req.authorization with
    | none => simpa using bearer_ne_empty token
    | some v =>
      intro hv
      apply h
      rw [ha]
      simpa using hv
  simp [serve, auth, Context.GetHeader, Context.fresh, Context.JSON, Context.Abort, hne]

/-- Every handler ends by writing a response with status 200 or 400. -/
theorem handler_last_write (r : Route) (w : WriteOutcome) (c : Context) (s : State) :
    (r.handler w c s).1.writes.getLast?.map Response.status = some 200 ∨
    (r.handler w c s).1.writes.getLast?.map Response.status = some 400 := by
  cases r
  · simp [Route.handler, getTasks, Context.JSON]
  · cases hb : c.req.bindTasks <;>
      simp [Route.handler, overwriteTasks, Context.BindJSON, hb, Context.JSON]
  · cases hb : c.req.bindTask <;>
      simp [Route.handler, addTask, Context.BindJSON, hb, Context.JSON]
  · cases hb : c.req.bindTask <;>
      simp [Route.handler, updateTask, Context.BindJSON, hb, Context.JSON]
  · simp [Route.handler, deleteTask, Context.JSON]

theorem deleteLoop_eq (id : String) (l acc : List Task) :
    deleteLoop id acc l = acc ++ l.filter (fun t => decide (t.ID ≠ id)) := by
  induction l generalizing acc with
  | nil => simp [deleteLoop]
  | cons t rest ih =>
    by_cases h : t.ID = id
    · simp [deleteLoop, h, ih]
    · simp [deleteLoop, h, ih]

theorem deleteTask_state (w : WriteOutcome) (c : Context) (s : State) :
    (deleteTask w c s).2.tasks
      = some (s.tasks.elems.filter (fun t => decide (t.ID ≠ c.req.id))) := by
  cases w <;> simp [deleteTask, saveTasks, Context.Param, deleteLoop_eq]

theorem updateLoop_no_match (id : String) (r : Task) (l : List Task)
    (h : ∀ t ∈ l, t.ID ≠ id) : updateLoop id r l = l := by
  induction l with
  | nil => rfl
  | cons t rest ih =>
    have ht : t.ID ≠ id := h t (List.mem_cons_self _ _)
    have hr : ∀ u ∈ rest, u.ID ≠ id := fun u hu => h u (List.mem_cons_of_mem _ hu)
    simp [updateLoop, ht, ih hr]

theorem updateLoop_eq_set (id : String) (r : Task) (l : List Task) :
    updateLoop id r l = l.set (firstMatch id l) r := by
  induction l with
  | nil => simp [updateLoop]
  | cons t rest ih =>
    unfold firstMatch at ih ⊢
    by_cases ht : t.ID = id
    · simp [updateLoop, List.findIdx_cons, ht]
    · simp [updateLoop, List.findIdx_cons, ht, ih]

theorem firstMatch_lt (id : String) (l : List Task) (h : ∃ t ∈ l, t.ID = id) :
    firstMatch id l < l.length := by
  unfold firstMatch
  apply List.findIdx_lt_length_of_exists
  obtain ⟨t, ht, hid⟩ := h
  exact ⟨t, ht, by simpa using hid⟩

theorem firstMatch_matches (id : String) (l : List Task) (h : ∃ t ∈ l, t.ID = id) :
    l[firstMatch id l]?.map Task.ID = some id := by
  have hlt := firstMatch_lt id l h
  rw [List.getElem?_eq_getElem hlt]
  have hp : decide ((l[firstMatch id l]).ID = id) = true :=
    @List.findIdx_getElem Task (fun t => decide (t.ID = id)) l hlt
  simpa using hp

theorem firstMatch_is_first (id : String) (l : List Task) (j : Nat)
    (hj : j < firstMatch id l) : l[j]?.map Task.ID ≠ some id := by
  have hle : firstMatch id l ≤ l.length := List.findIdx_le_length _
  have hjl : j < l.length := by omega
  rw [List.getElem?_eq_getElem hjl]
  have hp := @List.not_of_lt_findIdx Task (fun t => decide (t.ID = id)) l j hj
  simpa using hp

theorem updateTask_ok (w : WriteOutcome) (c : Context) (s : State) (r : Task)
    (hb : c.req.bindTask = .ok r) :
    updateTask w c s
      = (c.JSON 200 (H "status" "updated"),
         saveTasks w { s with tasks := s.tasks.map (updateLoop c.req.id r) }) := by
  simp [updateTask, Context.BindJSON, hb, Context.Param]

theorem saveTasks_tasks (w : WriteOutcome) (s : State) : (saveTasks w s).tasks = s.tasks := by
  cases w <;> rfl

theorem setTaskField_id (t : Task) (v : JSONValue) :
    setTaskField t ("id", v) = { t with ID := decodeString t.ID v } := rfl

theorem setTaskField_name (t : Task) (v : JSONValue) :
    setTaskField t ("name", v) = { t with Name := decodeString t.Name v } := rfl

theorem setTaskField_schedule (t : Task) (v : JSONValue) :
    setTaskField t ("schedule", v) = { t with Schedule := decodeString t.Schedule v } := rfl

theorem setTaskField_type (t : Task) (v : JSONValue) :
    setTaskField t ("type", v) = { t with Type_ := decodeString t.Type_ v } := rfl

theorem setTaskField_payload (t : Task) (v : JSONValue) :
    setTaskField t ("payload", v) = { t with Payload := decodeString t.Payload v } := rfl

theorem setTaskField_config (t : Task) (v : JSONValue) :
    setTaskField t ("config", v) = { t with Config := decodeConfigPtr t.Config v } := rfl

theorem setConfigField_remote_url (c : Config) (v : JSONValue) :
    setConfigField c ("remote_url", v) = { c with RemoteURL := decodeString c.RemoteURL v } :=
  rfl

theorem setConfigField_auth_token (c : Config) (v : JSONValue) :
    setConfigField c ("auth_token", v) = { c with AuthToken := decodeString c.AuthToken v } :=
  rfl

/-- Decoding the encoding of a `Config` into any `Config` gives it back. -/
theorem decodeConfig_marshalConfig (cur c : Config) :
    decodeConfig cur (marshalConfig c) = c := by
  simp [marshalConfig, decodeConfig, List.foldl, setConfigField_remote_url,
    setConfigField_auth_token, decodeString]

/-- Decoding the encoding of a `Task` into a zero `Task` gives it back. -/
theorem decodeTask_marshalTask (t : Task) : decodeTask zeroTask (marshalTask t) = t := by
  obtain ⟨id, name, sched, ty, payload, cfg⟩ := t
  have hcfg : ∀ (cur : Option Config) (c : Config),
      decodeConfigPtr cur (marshalConfig c) = some c := by
    intro cur c
    have h := decodeConfig_marshalConfig (cur.getD zeroConfig) c
    simp only [marshalConfig] at h ⊢
    simp only [decodeConfigPtr, h]
  by_cases hp : payload = ""
  · cases cfg with
    | none =>
      simp [marshalTask, decodeTask, zeroTask, hp, List.foldl, setTaskField_id,
        setTaskField_name, setTaskField_schedule, setTaskField_type, decodeString]
    | some c =>
      simp [marshalTask, decodeTask, zeroTask, hp, List.foldl, setTaskField_id,
        setTaskField_name, setTaskField_schedule, setTaskField_type, setTaskField_config,
        decodeString, hcfg]
  · cases cfg with
    | none =>
      simp [marshalTask, decodeTask, zeroTask, hp, List.foldl, setTaskField_id,
        setTaskField_name, setTaskField_schedule, setTaskField_type, setTaskField_payload,
        decodeString]
    | some c =>
      simp [marshalTask, decodeTask, zeroTask, hp, List.foldl, setTaskField_id,
        setTaskField_name, setTaskField_schedule, setTaskField_type, setTaskField_payload,
        setTaskField_config, decodeString, hcfg]

/-- Decoding the encoding of a slice into a nil slice gives it back, nil for
nil and non-nil for non-nil. -/
theorem unmarshalTasks_marshalTasks (l : Slice) : unmarshalTasks (marshalTasks l) = l := by
  cases l with
  | none => rfl
  | some ts =>
    simp only [marshalTasks, unmarshalTasks, List.map_map]
    congr 1
    induction ts with
    | nil => rfl
    | cons t rest ih => simp [decodeTask_marshalTask, ih]

theorem overwriteTasks_ok (w : WriteOutcome) (c : Context) (s : State) (n : Slice)
    (hb : c.req.bindTasks = .ok n) :
    overwriteTasks w c s
      = (c.JSON 200 (H "status" "updated"), saveTasks w { s with tasks := n }) := by
  simp [overwriteTasks, Context.BindJSON, hb]

theorem addTask_ok (w : WriteOutcome) (c : Context) (s : State) (t : Task)
    (hb : c.req.bindTask = .ok t) :
    addTask w c s
      = (c.JSON 200 (H "status" "added"),
         saveTasks w { s with tasks := s.tasks.append t }) := by
  simp [addTask, Context.BindJSON, hb]

theorem overwriteTasks_error (w : WriteOutcome) (c : Context) (s : State) (err : String)
    (hb : c.req.bindTasks = .error err) :
    overwriteTasks w c s = (c.Abort.JSON 400 (H "error" err), s) := by
  simp [overwriteTasks, Context.BindJSON, hb]

theorem addTask_error (w : WriteOutcome) (c : Context) (s : State) (err : String)
    (hb : c.req.bindTask = .error err) :
    addTask w c s = (c.Abort.JSON 400 (H "error" err), s) := by
  simp [addTask, Context.BindJSON, hb]

theorem updateTask_error (w : WriteOutcome) (c : Context) (s : State) (err : String)
    (hb : c.req.bindTask = .error err) :
    updateTask w c s = (c.Abort.JSON 400 (H "error" err), s) := by
  simp [updateTask, Context.BindJSON, hb]

theorem saveTasks_ok_mirrored (s : State) : (saveTasks .ok s).mirrored := rfl

/-- A call that reaches the mutation of its handler and whose write succeeds
leaves the file holding the encoding of the task list. -/
theorem step_mirrored_of_mutates (token : String) (s : State) (k : Call)
    (hk : k.mutates token) (hw : k.write = .ok) : (step token s k).mirrored := by
  obtain ⟨route, req, write⟩ := k
  simp only at hw
  subst hw
  obtain ⟨hauth, hroute⟩ := hk
  simp only at hauth hroute
  simp only [step]
  rw [serve_of_authorized token _ _ req s hauth]
  cases route with
  | getTasks => exact hroute.elim
  | overwriteTasks =>
    obtain ⟨n, hn⟩ := hroute
    simp only [Route.handler]
    rw [overwriteTasks_ok _ (Context.fresh req) s n hn]
    exact saveTasks_ok_mirrored _
  | addTask =>
    obtain ⟨t, ht⟩ := hroute
    simp only [Route.handler]
    rw [addTask_ok _ (Context.fresh req) s t ht]
    exact saveTasks_ok_mirrored _
  | updateTask =>
    obtain ⟨t, ht⟩ := hroute
    simp only [Route.handler]
    rw [updateTask_ok _ (Context.fresh req) s t ht]
    exact saveTasks_ok_mirrored _
  | deleteTask =>
    simp only [Route.handler, deleteTask]
    exact saveTasks_ok_mirrored _

/-- A call that does not reach a mutation (unauthorized, a read, or a body
that does not bind) changes neither the task list nor the file. -/
theorem step_of_not_mutates (token : String) (s : State) (k : Call)
    (hk : ¬ k.mutates token) : step token s k = s := by
  obtain ⟨route, req, write⟩ := k
  simp only [step]
  by_cases hauth : req.authorized token
  · rw [serve_of_authorized token _ _ req s hauth]
    have hroute : ¬ route.reachesMutation req := fun h => hk ⟨hauth, h⟩
    cases route with
    | getTasks => rfl
    | overwriteTasks =>
      cases hb : req.bindTasks with
      | ok n => exact absurd ⟨n, hb⟩ hroute
      | error err =>
        simp only [Route.handler]
        rw [overwriteTasks_error _ (Context.fresh req) s err hb]
    | addTask =>
      cases hb : req.bindTask with
      | ok t => exact absurd ⟨t, hb⟩ hroute
      | error err =>
        simp only [Route.handler]
        rw [addTask_error _ (Context.fresh req) s err hb]
    | updateTask =>
      cases hb : req.bindTask with
      | ok t => exact absurd ⟨t, hb⟩ hroute
      | error err =>
        simp only [Route.handler]
        rw [updateTask_error _ (Context.fresh req) s err hb]
    | deleteTask => exact absurd trivial hroute
  · rw [serve_of_not_authorized token _ _ req s hauth]

theorem step_preserves_mirrored (token : String) (s : State) (k : Call)
    (hw : k.mutates token → k.write = .ok) (hs : s.mirrored) :
    (step token s k).mirrored := by
  by_cases hk : k.mutates token
  · exact step_mirrored_of_mutates token s k hk (hw hk)
  · rw [step_of_not_mutates token s k hk]
    exact hs

theorem run_preserves_mirrored (token : String) (ks : List Call) (s : State)
    (hw : ∀ k ∈ ks, k.mutates token → k.write = .ok) (hs : s.mirrored) :
    (run token s ks).mirrored := by
  induction ks generalizing s with
  | nil => exact hs
  | cons k rest ih =>
    simp only [run, List.foldl_cons]
    apply ih
    · intro c hc
      exact hw c (List.mem_cons_of_mem _ hc)
    · exact step_preserves_mirrored token s k (hw k (List.mem_cons_self _ _)) hs

theorem run_append (token : String) (s : State) (ks ls : List Call) :
    run token s (ks ++ ls) = run token (run token s ks) ls := by
  simp [run, List.foldl_append]

/-- What `getTasks` does in general: one response, 200 with the encoding of
`tasks`, and no change of state; the body is an array exactly when `tasks` is
not nil, and then it lists the encoded tasks in store order. -/
theorem getTasks_snapshot (token : String) (w : WriteOutcome) (req : Request) (s : State)
    (h : req.authorized token) :
    (serve token .getTasks w req s).1.writes = [⟨200, marshalTasks s.tasks⟩] ∧
    (serve token .getTasks w req s).2 = s ∧
    ((marshalTasks s.tasks).isArray = true ↔ s.tasks ≠ none) ∧
    (∀ l, s.tasks = some l → marshalTasks s.tasks = .array (l.map marshalTask)) := by
  rw [serve_of_authorized token _ w req s h]
  refine ⟨rfl, rfl, ?_, ?_⟩
  · cases s.tasks <;> simp [marshalTasks, JSONValue.isArray]
  · intro l hl
    rw [hl]
    rfl

/-! ## The claims -/

/-- C1 (auth gate).  On each of the five routes, a request whose
`Authorization` header is absent or is not `"Bearer " ++ token` gets exactly
one response, status 401 with body `{"error":"unauthorized"}`; the chain is
aborted; the task list and the file are what they were; and the outcome is not
the outcome of any run of the route's handler, since every handler ends by
writing a 200 or a 400. -/
theorem auth_gate (token : String) (r : Route) (w : WriteOutcome) (req : Request)
    (s : State)
    (h : req.authorization = none ∨
      ∃ v, req.authorization = some v ∧ v ≠ "Bearer " ++ token) :
    (serve token r w req s).1.writes
        = [⟨401, .object [("error", .string "unauthorized")]⟩] ∧
    (serve token r w req s).1.aborted = true ∧
    (serve token r w req s).2 = s ∧
    (serve token r w req s).2.tasks = s.tasks ∧
    ∀ (w0 : WriteOutcome) (c0 : Context) (s0 : State),
      (serve token r w req s).1 ≠ (r.handler w0 c0 s0).1 := by
  have hna : ¬ req.authorized token := by
    unfold Request.authorized
    rcases h with h | ⟨v, hv, hne⟩
    · simp [h]
    · rw [hv]
      intro he
      exact hne (Option.some.inj he)
  rw [serve_of_not_authorized token r w req s hna]
  refine ⟨rfl, rfl, rfl, rfl, ?_⟩
  intro w0 c0 s0 he
  have hlast := handler_last_write r w0 c0 s0
  rw [← he] at hlast
  simp at hlast

/-- Witness of C1: `DELETE /api/tasks/a` without a header, and
`GET /api/tasks` with a wrong token, on a store of two tasks. -/
theorem auth_gate_witness :
    (serve "secret123" .deleteTask .ok (Request.noBody (none) "a")
        ⟨some [⟨"a", "", "", "", "", none⟩, ⟨"b", "", "", "", "", none⟩], none⟩).2.tasks
      = some [⟨"a", "", "", "", "", none⟩, ⟨"b", "", "", "", "", none⟩] ∧
    (serve "secret123" .getTasks .ok (Request.noBody (some "Bearer secret") "")
        ⟨some [⟨"a", "", "", "", "", none⟩, ⟨"b", "", "", "", "", none⟩], none⟩).1.writes
      = [⟨401, .object [("error", .string "unauthorized")]⟩] :=
  ⟨(auth_gate "secret123" .deleteTask .ok (Request.noBody (none) "a")
      ⟨some [⟨"a", "", "", "", "", none⟩, ⟨"b", "", "", "", "", none⟩], none⟩
      (Or.inl rfl)).2.2.2.1,
   (auth_gate "secret123" .getTasks .ok (Request.noBody (some "Bearer secret") "")
      ⟨some [⟨"a", "", "", "", "", none⟩, ⟨"b", "", "", "", "", none⟩], none⟩
      (Or.inr ⟨"Bearer secret", rfl, by decide⟩)).1⟩

/-- C2 (delete removes all matches).  After an authorized `deleteTask` the
task list is the list of the tasks whose ID differs from the id, in their
original order: it is a sub-sequence of the old list, no task with that id
remains, a task with another ID occurs as often as before, and when no task
has that id the sequence is the old one. -/
theorem deleteTask_removes_all_matches (token : String) (w : WriteOutcome)
    (req : Request) (s : State) (h : req.authorized token) :
    (serve token .deleteTask w req s).2.tasks
        = some (s.tasks.elems.filter (fun t => decide (t.ID ≠ req.id))) ∧
    ((serve token .deleteTask w req s).2.tasks.elems).Sublist s.tasks.elems ∧
    (∀ t ∈ (serve token .deleteTask w req s).2.tasks.elems, t.ID ≠ req.id) ∧
    (∀ t, t.ID ≠ req.id →
      (serve token .deleteTask w req s).2.tasks.elems.count t = s.tasks.elems.count t) ∧
    ((∀ t ∈ s.tasks.elems, t.ID ≠ req.id) →
      (serve token .deleteTask w req s).2.tasks.elems = s.tasks.elems) := by
  rw [serve_of_authorized token _ w req s h]
  have hs := deleteTask_state w (Context.fresh req) s
  simp only [Route.handler, Context.fresh] at hs ⊢
  rw [hs]
  refine ⟨rfl, ?_, ?_, ?_, ?_⟩
  · simp [Slice.elems]
  · intro t ht
    simp [Slice.elems] at ht
    exact ht.2
  · intro t ht
    simp only [Slice.elems]
    rw [List.count_filter]
    simpa using ht
  · intro hall
    simp only [Slice.elems]
    rw [List.filter_eq_self]
    intro t ht
    simpa using hall t ht

/-- Witness of C2: the store `[a, b, a]` and `DELETE /api/tasks/a` give `[b]`. -/
theorem deleteTask_removes_all_matches_witness :
    (serve "secret123" .deleteTask .ok
        (Request.noBody (some "Bearer secret123") "a")
        ⟨some [⟨"a", "", "", "", "", none⟩, ⟨"b", "", "", "", "", none⟩,
               ⟨"a", "", "", "", "", none⟩], none⟩).2.tasks
      = some [⟨"b", "", "", "", "", none⟩] :=
  (deleteTask_removes_all_matches "secret123" .ok
      (Request.noBody (some "Bearer secret123") "a")
      ⟨some [⟨"a", "", "", "", "", none⟩, ⟨"b", "", "", "", "", none⟩,
             ⟨"a", "", "", "", "", none⟩], none⟩ rfl).1.trans (by decide)

/-- C3 (update by id replaces in place).  When some task has the id, after an
authorized `updateTask` with replacement `r` the list has the old length; at
the index of the first task whose ID is the id it holds `r` as given (so with
the ID of `r`, whatever that is); and at every other index, later tasks with
the same id included, it holds what it held. -/
theorem updateTask_replaces_first_match (token : String) (w : WriteOutcome)
    (req : Request) (s : State) (r : Task)
    (h : req.authorized token) (hb : req.bindTask = .ok r)
    (hm : ∃ t ∈ s.tasks.elems, t.ID = req.id) :
    firstMatch req.id s.tasks.elems < s.tasks.elems.length ∧
    (s.tasks.elems[firstMatch req.id s.tasks.elems]?.map Task.ID = some req.id) ∧
    (∀ j, j < firstMatch req.id s.tasks.elems →
      s.tasks.elems[j]?.map Task.ID ≠ some req.id) ∧
    (serve token .updateTask w req s).2.tasks
      = some (s.tasks.elems.set (firstMatch req.id s.tasks.elems) r) ∧
    (serve token .updateTask w req s).2.tasks.elems.length = s.tasks.elems.length ∧
    (serve token .updateTask w req s).2.tasks.elems[firstMatch req.id s.tasks.elems]?
      = some r ∧
    (∀ j, j ≠ firstMatch req.id s.tasks.elems →
      (serve token .updateTask w req s).2.tasks.elems[j]? = s.tasks.elems[j]?) := by
  rw [serve_of_authorized token _ w req s h]
  simp only [Route.handler]
  rw [updateTask_ok w (Context.fresh req) s r hb, saveTasks_tasks]
  simp only [Context.fresh]
  cases hs : s.tasks with
  | none => simp [hs, Slice.elems] at hm
  | some l =>
    rw [hs] at hm
    simp only [Slice.elems] at hm ⊢
    have hi := firstMatch_lt req.id l hm
    refine ⟨hi, firstMatch_matches req.id l hm, firstMatch_is_first req.id l, ?_, ?_, ?_, ?_⟩
    · simp [updateLoop_eq_set]
    · simp [updateLoop_eq_set]
    · simp [updateLoop_eq_set, List.getElem?_set, hi]
    · intro j hj
      simp [updateLoop_eq_set, List.getElem?_set, Ne.symm hj]

/-- Witness of C3: the store `[a, b]` and `PUT /api/tasks/a` with the task
`a` renamed to `changed` give `[a (changed), b]`. -/
theorem updateTask_replaces_first_match_witness :
    (serve "secret123" .updateTask .ok
        (Request.withTask (some "Bearer secret123") "a" ⟨"a", "changed", "", "", "", none⟩)
        ⟨some [⟨"a", "", "", "", "", none⟩, ⟨"b", "", "", "", "", none⟩], none⟩).2.tasks
      = some [⟨"a", "changed", "", "", "", none⟩, ⟨"b", "", "", "", "", none⟩] :=
  (updateTask_replaces_first_match "secret123" .ok
      (Request.withTask (some "Bearer secret123") "a" ⟨"a", "changed", "", "", "", none⟩)
      ⟨some [⟨"a", "", "", "", "", none⟩, ⟨"b", "", "", "", "", none⟩], none⟩
      ⟨"a", "changed", "", "", "", none⟩ rfl rfl
      ⟨⟨"a", "", "", "", "", none⟩, by simp [Slice.elems], rfl⟩).2.2.2.1.trans (by decide)

/-- C4 (update on a missing id).  When no task has the id, an authorized
`updateTask` leaves the task list as it was (a nil slice stays nil) and
answers 200 with body `{"status":"updated"}`; that response is the one the
same request gets on any other store, so also on one where a task matches. -/
theorem updateTask_missing_id_noop (token : String) (w : WriteOutcome)
    (req : Request) (s : State) (r : Task)
    (h : req.authorized token) (hb : req.bindTask = .ok r)
    (hm : ∀ t ∈ s.tasks.elems, t.ID ≠ req.id) :
    (serve token .updateTask w req s).2.tasks = s.tasks ∧
    (serve token .updateTask w req s).1.writes
      = [⟨200, .object [("status", .string "updated")]⟩] ∧
    ∀ (w0 : WriteOutcome) (s0 : State),
      (serve token .updateTask w0 req s0).1.writes
        = (serve token .updateTask w req s).1.writes := by
  have hserve : ∀ (w0 : WriteOutcome) (s0 : State),
      serve token .updateTask w0 req s0
        = ((Context.fresh req).JSON 200 (H "status" "updated"),
           saveTasks w0 { s0 with tasks := s0.tasks.map (updateLoop req.id r) }) := by
    intro w0 s0
    rw [serve_of_authorized token _ w0 req s0 h]
    simp only [Route.handler]
    rw [updateTask_ok w0 (Context.fresh req) s0 r hb]
    rfl
  refine ⟨?_, ?_, ?_⟩
  · rw [hserve, saveTasks_tasks]
    cases hs : s.tasks with
    | none => rfl
    | some l =>
      rw [hs] at hm
      simp only [Slice.elems] at hm
      simp [updateLoop_no_match req.id r l hm]
  · rw [hserve]
    rfl
  · intro w0 s0
    rw [hserve, hserve]

/-- Witness of C4: the store `[a]` and `PUT /api/tasks/zzz` leave `[a]`. -/
theorem updateTask_missing_id_noop_witness :
    (serve "secret123" .updateTask .ok
        (Request.withTask (some "Bearer secret123") "zzz" ⟨"zzz", "x", "", "", "", none⟩)
        ⟨some [⟨"a", "", "", "", "", none⟩], none⟩).2.tasks
      = some [⟨"a", "", "", "", "", none⟩] ∧
    (serve "secret123" .updateTask .ok
        (Request.withTask (some "Bearer secret123") "zzz" ⟨"zzz", "x", "", "", "", none⟩)
        ⟨some [⟨"a", "", "", "", "", none⟩], none⟩).1.writes
      = [⟨200, .object [("status", .string "updated")]⟩] :=
  ⟨(updateTask_missing_id_noop "secret123" .ok
      (Request.withTask (some "Bearer secret123") "zzz" ⟨"zzz", "x", "", "", "", none⟩)
      ⟨some [⟨"a", "", "", "", "", none⟩], none⟩ ⟨"zzz", "x", "", "", "", none⟩ rfl rfl
      (by decide)).1,
   (updateTask_missing_id_noop "secret123" .ok
      (Request.withTask (some "Bearer secret123") "zzz" ⟨"zzz", "x", "", "", "", none⟩)
      ⟨some [⟨"a", "", "", "", "", none⟩], none⟩ ⟨"zzz", "x", "", "", "", none⟩ rfl rfl
      (by decide)).2.1⟩

/-- C5 (add appends at the end).  After an authorized `addTask` with task `t`
the task list is the old list followed by `t`, whether or not the ID of `t`
was there; an authorized `getTasks` on that state answers 200 with the array
of the encodings of these tasks in this order and changes nothing; and
decoding that array gives the old list followed by `t`. -/
theorem addTask_appends (token : String) (w wl : WriteOutcome) (req reqList : Request)
    (s : State) (t : Task)
    (h : req.authorized token) (hb : req.bindTask = .ok t)
    (hl : reqList.authorized token) :
    (serve token .addTask w req s).2.tasks = some (s.tasks.elems ++ [t]) ∧
    (serve token .getTasks wl reqList (serve token .addTask w req s).2).1.writes
      = [⟨200, .array ((s.tasks.elems ++ [t]).map marshalTask)⟩] ∧
    (serve token .getTasks wl reqList (serve token .addTask w req s).2).2
      = (serve token .addTask w req s).2 ∧
    unmarshalTasks (.array ((s.tasks.elems ++ [t]).map marshalTask))
      = some (s.tasks.elems ++ [t]) := by
  have hadd : (serve token .addTask w req s).2.tasks = some (s.tasks.elems ++ [t]) := by
    rw [serve_of_authorized token _ w req s h]
    simp only [Route.handler]
    rw [addTask_ok w (Context.fresh req) s t hb, saveTasks_tasks]
    rfl
  refine ⟨hadd, ?_, ?_, ?_⟩
  · rw [serve_of_authorized token _ wl reqList _ hl]
    simp only [Route.handler, getTasks, Context.JSON, Context.fresh, hadd, marshalTasks]
    rfl
  · rw [serve_of_authorized token _ wl reqList _ hl]
    rfl
  · exact unmarshalTasks_marshalTasks (some (s.tasks.elems ++ [t]))

/-- Witness of C5: on the store of a fresh start without a file, adding the
task `t1` (`ping`, `09:30`, `http_check`) and listing gives the array of that
one task. -/
theorem addTask_appends_witness :
    (serve "secret123" .addTask .ok
        (Request.withTask (some "Bearer secret123") "" ⟨"t1", "ping", "09:30", "http_check", "", none⟩) (boot none)).2.tasks
      = some [⟨"t1", "ping", "09:30", "http_check", "", none⟩] ∧
    (serve "secret123" .getTasks .ok
        (Request.noBody (some "Bearer secret123") "")
        (serve "secret123" .addTask .ok
          (Request.withTask (some "Bearer secret123") "" ⟨"t1", "ping", "09:30", "http_check", "", none⟩) (boot none)).2).1.writes
      = [⟨200, .array [.object [("id", .string "t1"), ("name", .string "ping"),
          ("schedule", .string "09:30"), ("type", .string "http_check")]]⟩] :=
  ⟨(addTask_appends "secret123" .ok .ok
      (Request.withTask (some "Bearer secret123") "" ⟨"t1", "ping", "09:30", "http_check", "", none⟩)
      (Request.noBody (some "Bearer secret123") "") (boot none)
      ⟨"t1", "ping", "09:30", "http_check", "", none⟩ rfl rfl rfl).1,
   (addTask_appends "secret123" .ok .ok
      (Request.withTask (some "Bearer secret123") "" ⟨"t1", "ping", "09:30", "http_check", "", none⟩)
      (Request.noBody (some "Bearer secret123") "") (boot none)
      ⟨"t1", "ping", "09:30", "http_check", "", none⟩ rfl rfl rfl).2.1⟩

/-- C6 (overwrite replaces wholesale).  After an authorized `overwriteTasks`
whose body binds to the slice `n`, the task list is `n`, element for element
and in the order of `n`, whatever the list was before: from any two prior
states the same overwrite leads to the same state. -/
theorem overwriteTasks_replaces_wholesale (token : String) (w : WriteOutcome)
    (req : Request) (s : State) (n : Slice)
    (h : req.authorized token) (hb : req.bindTasks = .ok n) :
    (serve token .overwriteTasks w req s).2.tasks = n ∧
    (serve token .overwriteTasks w req s).2.tasks.elems = n.elems ∧
    ∀ s0 : State,
      (serve token .overwriteTasks w req s0).2.tasks
        = (serve token .overwriteTasks w req s).2.tasks := by
  have hserve : ∀ s0 : State, (serve token .overwriteTasks w req s0).2.tasks = n := by
    intro s0
    rw [serve_of_authorized token _ w req s0 h]
    simp only [Route.handler]
    rw [overwriteTasks_ok w (Context.fresh req) s0 n hb, saveTasks_tasks]
  refine ⟨hserve s, by rw [hserve s], ?_⟩
  intro s0
  rw [hserve s0, hserve s]

/-- Witness of C6: the store `[a, b]` overwritten with `[c, c]` (a duplicate
id) holds `[c, c]`. -/
theorem overwriteTasks_replaces_wholesale_witness :
    (serve "secret123" .overwriteTasks .ok
        (Request.withTasks (some "Bearer secret123")
          (some [⟨"c", "", "", "", "", none⟩, ⟨"c", "x", "", "", "", none⟩]))
        ⟨some [⟨"a", "", "", "", "", none⟩, ⟨"b", "", "", "", "", none⟩], none⟩).2.tasks
      = some [⟨"c", "", "", "", "", none⟩, ⟨"c", "x", "", "", "", none⟩] :=
  (overwriteTasks_replaces_wholesale "secret123" .ok
      (Request.withTasks (some "Bearer secret123")
        (some [⟨"c", "", "", "", "", none⟩, ⟨"c", "x", "", "", "", none⟩]))
      ⟨some [⟨"a", "", "", "", "", none⟩, ⟨"b", "", "", "", "", none⟩], none⟩
      (some [⟨"c", "", "", "", "", none⟩, ⟨"c", "x", "", "", "", none⟩]) rfl rfl).1

/-- C7 (malformed body).  On each of the three routes that bind a body, when
`c.BindJSON` returns an error the authorized request is answered 400 with body
`{"error": <text of the error>}` and nothing else, and the state after it is
the state before it: the task list is the same and the file is the same,
whatever a write would have done. -/
theorem malformed_body_rejected (token : String) (r : Route) (w : WriteOutcome)
    (req : Request) (s : State) (err : String)
    (h : req.authorized token)
    (hb : (r = .overwriteTasks ∧ req.bindTasks = .error err) ∨
      ((r = .addTask ∨ r = .updateTask) ∧ req.bindTask = .error err)) :
    (serve token r w req s).1.writes = [⟨400, .object [("error", .string err)]⟩] ∧
    (serve token r w req s).2.tasks = s.tasks ∧
    (serve token r w req s).2.file = s.file ∧
    (serve token r w req s).2 = s := by
  rw [serve_of_authorized token r w req s h]
  rcases hb with ⟨rfl, hb⟩ | ⟨rfl | rfl, hb⟩
  · simp only [Route.handler]
    rw [overwriteTasks_error w (Context.fresh req) s err hb]
    exact ⟨rfl, rfl, rfl, rfl⟩
  · simp only [Route.handler]
    rw [addTask_error w (Context.fresh req) s err hb]
    exact ⟨rfl, rfl, rfl, rfl⟩
  · simp only [Route.handler]
    rw [updateTask_error w (Context.fresh req) s err hb]
    exact ⟨rfl, rfl, rfl, rfl⟩

/-- Witness of C7: `PUT /api/tasks/a` with an empty body on the store `[a]`
whose file holds something else, with a disk on which a write would have
removed the file. -/
theorem malformed_body_rejected_witness :
    (serve "secret123" .updateTask (.failed none)
        (Request.noBody (some "Bearer secret123") "a")
        ⟨some [⟨"a", "", "", "", "", none⟩], some .notJSON⟩).1.writes
      = [⟨400, .object [("error", .string "EOF")]⟩] ∧
    (serve "secret123" .updateTask (.failed none)
        (Request.noBody (some "Bearer secret123") "a")
        ⟨some [⟨"a", "", "", "", "", none⟩], some .notJSON⟩).2
      = ⟨some [⟨"a", "", "", "", "", none⟩], some .notJSON⟩ :=
  ⟨(malformed_body_rejected "secret123" .updateTask (.failed none)
      (Request.noBody (some "Bearer secret123") "a")
      ⟨some [⟨"a", "", "", "", "", none⟩], some .notJSON⟩ "EOF" rfl
      (Or.inr ⟨Or.inr rfl, rfl⟩)).1,
   (malformed_body_rejected "secret123" .updateTask (.failed none)
      (Request.noBody (some "Bearer secret123") "a")
      ⟨some [⟨"a", "", "", "", "", none⟩], some .notJSON⟩ "EOF" rfl
      (Or.inr ⟨Or.inr rfl, rfl⟩)).2.2.2⟩

/-- C8 (persistence round trip).  For every state, when `saveTasks` writes
the file and a fresh process then runs `loadTasks` on it, the task list of the
new process is the task list that was saved: the same slice, so the same
length and order and every field of every task, an empty payload and an absent
or present config included. -/
theorem persistence_round_trip (s : State) :
    loadTasks (saveTasks .ok s).file = s.tasks ∧
    (boot (saveTasks .ok s).file).tasks = s.tasks ∧
    (boot (saveTasks .ok s).file).tasks.elems = s.tasks.elems := by
  have hload : loadTasks (saveTasks .ok s).file = s.tasks := by
    simp only [saveTasks, loadTasks]
    exact unmarshalTasks_marshalTasks s.tasks
  refine ⟨hload, hload, ?_⟩
  simp only [boot, hload]

/-- C9, at the input where the code departs from it.  On a fresh start
without a persistence file (`tasks` never assigned), and on the state after
`overwriteTasks` with the body `null` (which binds to the nil slice), an
authorized `GET /api/tasks` answers 200 with the body `null`, which is not a
JSON array; after `deleteTask` on the same fresh start the body is the empty
array. -/
theorem getTasks_nil_slice_is_null :
    (serve "secret123" .getTasks .ok
        (Request.noBody (some "Bearer secret123") "") (boot none)).1.writes
      = [⟨200, .null⟩] ∧
    JSONValue.null.isArray = false ∧
    unmarshalTasks .null = none ∧
    (serve "secret123" .getTasks .ok
        (Request.noBody (some "Bearer secret123") "")
        (serve "secret123" .overwriteTasks .ok
          (Request.withTasks (some "Bearer secret123") (unmarshalTasks .null))
          ⟨some [⟨"a", "", "", "", "", none⟩], none⟩).2).1.writes
      = [⟨200, .null⟩] ∧
    (serve "secret123" .getTasks .ok
        (Request.noBody (some "Bearer secret123") "")
        (serve "secret123" .deleteTask .ok
          (Request.noBody (some "Bearer secret123") "a")
          (boot none)).2).1.writes
      = [⟨200, .array []⟩] :=
  ⟨rfl, rfl, rfl, rfl, rfl⟩

/-- C10 (the file mirrors the store).  A call that is authorized, on a
mutating route and with a body that binds, and whose file write succeeds,
leaves the file holding the encoding of the whole task list as it stands
after the call.  In a sequence of calls served one after the other, whatever
came before such a call, as long as the writes of the mutating calls after it
succeed, the file holds the encoding of the task list at the end. -/
theorem file_mirrors_store (token : String) (s : State) (pre post : List Call) (k : Call)
    (hk : k.mutates token) (hw : k.write = .ok)
    (hpost : ∀ c ∈ post, c.mutates token → c.write = .ok) :
    (step token s k).file = some (.json (marshalTasks (step token s k).tasks)) ∧
    (run token s (pre ++ k :: post)).file
      = some (.json (marshalTasks (run token s (pre ++ k :: post)).tasks)) := by
  refine ⟨step_mirrored_of_mutates token s k hk hw, ?_⟩
  rw [run_append]
  simp only [run, List.foldl_cons]
  exact run_preserves_mirrored token post _ hpost
    (step_mirrored_of_mutates token _ k hk hw)

/-- Witness of C10: on a start with an unreadable file, a call whose write
fails, then `POST /api/tasks/add` of the task `b`, then an unauthorized
delete, leave the file holding the encoding of `[b]`. -/
theorem file_mirrors_store_witness :
    (run "secret123" (boot none)
        ([⟨.deleteTask, (Request.noBody (some "Bearer secret123") "a"),
            .failed (some .notJSON)⟩]
          ++ ⟨.addTask, (Request.withTask (some "Bearer secret123") "" ⟨"b", "", "", "", "", none⟩), .ok⟩
          :: [⟨.deleteTask, (Request.noBody (none) "b"), .ok⟩])).file
      = some (.json (.array [.object [("id", .string "b"), ("name", .string ""),
          ("schedule", .string ""), ("type", .string "")]])) :=
  (file_mirrors_store "secret123" (boot none)
      [⟨.deleteTask, (Request.noBody (some "Bearer secret123") "a"),
          .failed (some .notJSON)⟩]
      [⟨.deleteTask, (Request.noBody (none) "b"), .ok⟩]
      ⟨.addTask, (Request.withTask (some "Bearer secret123") "" ⟨"b", "", "", "", "", none⟩), .ok⟩
      ⟨rfl, ⟨_, rfl⟩⟩ rfl (by intro c hc _; simp at hc; rw [hc])).2.trans rfl

end Control
